import Mathlib

/-!
Shallow embedding of the `saaba` HTTP micro-framework (src/saaba/saaba.py,
with `Response`/`Request` duplicated verbatim in src/saaba/containers.py),
together with theorems checking the specification's claims about it.

Python strings are modelled as Lean `String`; the Python string methods the
code uses (`rstrip("/")`, `split(sep)` for one-character separators,
`replace(old, new)`, `startswith`, `in`) are given explicit executable
models below, each documented against CPython semantics.

Python dicts are modelled as insertion-ordered association lists with
Python's assignment semantics (overwrite-in-place for an existing key,
append for a new one).  An uncaught Python exception is modelled by
`Option.none` in the result of the function that raises.
-/

namespace Saaba

/-- CPython `s.rstrip("/")` on the underlying character list: remove *all*
trailing `'/'` characters (not just one). -/
def rstripSlashL (l : List Char) : List Char :=
  (l.reverse.dropWhile (fun c => c = '/')).reverse

/-- CPython `s.rstrip("/")`. -/
def rstripSlash (s : String) : String :=
  ⟨rstripSlashL s.data⟩

/-- CPython `s.split(sep)` for a one-character separator `sep`: split on
every occurrence, keeping empty parts; `"".split(sep) == [""]`, and a
string with `n` occurrences of `sep` yields `n+1` parts. -/
def pySplitL (sep : Char) : List Char → List (List Char)
  | [] => [[]]
  | c :: rest =>
    match pySplitL sep rest with
    | [] => []
    | p :: ps => if c = sep then [] :: p :: ps else (c :: p) :: ps

/-- CPython `s.split(sep)` for a one-character separator, on `String`. -/
def pySplit (s : String) (sep : Char) : List String :=
  (pySplitL sep s.data).map (fun l => ⟨l⟩)

/-- CPython `s.replace(old, new)` on character lists, written with a fuel
argument so the recursion is structural (each step consumes at least one
character, so any fuel at least the haystack's length gives the
replace-all semantics; see `pyReplaceFuel_congr`): replace **every**
non-overlapping occurrence of `old`, scanning left to right; when `old`
is empty, `new` is inserted before every character and at the end, as
CPython does. -/
def pyReplaceFuel (old new : List Char) : Nat → List Char → List Char
  | _, [] => if old = [] then new else []
  | 0, s => s
  | f + 1, c :: rest =>
    if old = [] then new ++ c :: pyReplaceFuel old new f rest
    else if old.isPrefixOf (c :: rest) then
      new ++ pyReplaceFuel old new f ((c :: rest).drop old.length)
    else c :: pyReplaceFuel old new f rest

/-- CPython `s.replace(old, new)` on character lists. -/
def pyReplaceL (old new s : List Char) : List Char :=
  pyReplaceFuel old new s.length s

/-- CPython `s.replace(old, new)` on `String`. -/
def pyReplace (s old new : String) : String :=
  ⟨pyReplaceL old.data new.data s.data⟩

/-! ## Python dicts as insertion-ordered association lists -/

/-- Python `d[k] = v`: overwrite the value in place when `k` is present
(keeping its position), append `(k, v)` otherwise. -/
def dictSet {α : Type} (d : List (String × α)) (k : String) (v : α) :
    List (String × α) :=
  match d with
  | [] => [(k, v)]
  | (k0, v0) :: rest =>
    if k0 = k then (k0, v) :: rest else (k0, v0) :: dictSet rest k v

/-- Python `d[k]` / `d.get(k)`: the value at the first (unique) occurrence
of `k`. -/
def dictGet {α : Type} (d : List (String × α)) (k : String) : Option α :=
  match d with
  | [] => none
  | (k0, v0) :: rest => if k0 = k then some v0 else dictGet rest k

/-- Python `k in d`. -/
def dictHas {α : Type} (d : List (String × α)) (k : String) : Bool :=
  d.any (fun kv => kv.1 = k)

/-- Python `a |= b` / `a.update(b)`: set each of `b`'s pairs into `a` in
order.  Keys already in `a` keep their position and take `b`'s value; new
keys are appended in `b`'s order. -/
def dictUpdate {α : Type} (a b : List (String × α)) : List (String × α) :=
  b.foldl (fun acc kv => dictSet acc kv.1 kv.2) a

/-! ## A small JSON value model

The bodies the framework handles are JSON objects whose values, in every
claim under check, are integers or strings (without characters that
`json.dumps` would escape).  `jsonDumps` reproduces CPython
`json.dumps` with its default separators `", "` and `": "`;
`jsonLoads` is an executable parser for exactly that object grammar
(with arbitrary blank runs where `json.loads` allows whitespace), returning
`none` where `json.loads` raises or where the subsequent `dict`-merge in
`Response.add` would raise on a non-object. -/

inductive JVal where
  | num : Int → JVal
  | str : String → JVal
deriving DecidableEq, Repr

abbrev JObj := List (String × JVal)

def dumpJVal : JVal → String
  | .num i => toString i
  | .str s => "\x22" ++ s ++ "\x22"

/-- CPython `json.dumps` on a dict with the modelled value types. -/
def jsonDumps (obj : JObj) : String :=
  "\x7b" ++ String.intercalate ", "
    (obj.map (fun kv => "\x22" ++ kv.1 ++ "\x22: " ++ dumpJVal kv.2)) ++ "\x7d"

/-- Skip a run of spaces. -/
def skipSpaces : List Char → List Char :=
  List.dropWhile (fun c => c = ' ')

/-- Decimal value of a digit run. -/
def digitsToNat (l : List Char) : Nat :=
  l.foldl (fun n c => 10 * n + (c.toNat - Char.toNat '0')) 0

/-- Parse a decimal integer with optional leading minus sign. -/
def parseInt (l : List Char) : Option (Int × List Char) :=
  match l with
  | '-' :: rest =>
    let ds := rest.takeWhile (fun c => c.isDigit)
    if ds = [] then none
    else some (-(digitsToNat ds : Int), rest.dropWhile (fun c => c.isDigit))
  | _ =>
    let ds := l.takeWhile (fun c => c.isDigit)
    if ds = [] then none
    else some ((digitsToNat ds : Int), l.dropWhile (fun c => c.isDigit))

/-- Parse a quoted string without escapes. -/
def parseStr (l : List Char) : Option (String × List Char) :=
  match l with
  | '\x22' :: rest =>
    let body := rest.takeWhile (fun c => c ≠ '\x22')
    match rest.dropWhile (fun c => c ≠ '\x22') with
    | '\x22' :: after => some (⟨body⟩, after)
    | _ => none
  | _ => none

def parseJVal (l : List Char) : Option (JVal × List Char) :=
  match parseStr l with
  | some (s, rest) => some (.str s, rest)
  | none =>
    match parseInt l with
    | some (i, rest) => some (.num i, rest)
    | none => none

/-- Parse `"key": value` then either `, ` and more pairs or the closing
brace.  Fuel is the length of the remaining input. -/
def parsePairsJ : Nat → List Char → JObj → Option (JObj × List Char)
  | 0, _, _ => none
  | n + 1, l, acc =>
    match parseStr (skipSpaces l) with
    | none => none
    | some (k, rest) =>
      match skipSpaces rest with
      | ':' :: rest2 =>
        match parseJVal (skipSpaces rest2) with
        | none => none
        | some (v, rest3) =>
          match skipSpaces rest3 with
          | ',' :: rest4 => parsePairsJ n rest4 (dictSet acc k v)
          | '\x7d' :: rest5 => some (dictSet acc k v, rest5)
          | _ => none
      | _ => none

/-- CPython `json.loads` restricted to the object grammar above; `none`
models an uncaught exception (either `json.JSONDecodeError`, or the
`TypeError` that `dict |= non-dict` would raise right after a successful
parse of a non-object). -/
def jsonLoads (s : String) : Option JObj :=
  match skipSpaces s.data with
  | '\x7b' :: rest =>
    match skipSpaces rest with
    | '\x7d' :: after => if skipSpaces after = [] then some [] else none
    | _ =>
      match parsePairsJ rest.length rest [] with
      | some (obj, after) => if skipSpaces after = [] then some obj else none
      | none => none
  | _ => none

/-! ## Request and Response (saaba.py lines 16–76; identical class in
containers.py lines 10–70) -/

/-- The argument of `Response.send` / `Response.add`: Python's runtime
`isinstance(data, dict)` branch becomes a tagged union. -/
inductive Data where
  | text : String → Data
  | json : JObj → Data
deriving DecidableEq, Repr

/-- The `Request` dataclass. -/
structure Request where
  url : String
  path : String
  query : Option (List (String × String))
  body : Option JObj
  client : String × Nat
deriving DecidableEq, Repr

/-- The `Response` object: `headers` is a Python dict, `data` the accumulated
body text, `status` the status code. -/
structure Response where
  headers : List (String × String)
  data : String
  status : Nat
deriving DecidableEq, Repr

/-- Model of `Response.__init__`. -/
def Response.init : Response :=
  { headers := [("Content-type", "text/html"),
                ("Access-Control-Allow-Origin", "*")],
    data := "",
    status := 200 }

/-- Model of `Response.send` (saaba.py lines 42–51). -/
def Response.send (r : Response) (data : Data) : Response :=
  match data with
  | .json obj =>
    { r with headers := dictSet r.headers "Content-type" "application/json",
             data := jsonDumps obj }
  | .text s =>
    { r with headers := dictSet r.headers "Content-type" "text/html",
             data := s }

/-- Model of `Response.add` (saaba.py lines 53–66).  `none` models an uncaught
exception: a missing `Content-type` key, or `json.loads`/`|=` raising
inside the merge branch. -/
def Response.add (r : Response) (data : Data) : Option Response :=
  match dictGet r.headers "Content-type" with
  | none => none
  | some content_type =>
    match data with
    | .json obj =>
      if r.data ≠ "" then
        if content_type = "application/json" then
          match jsonLoads r.data with
          | none => none
          | some data_merge =>
            some { r with data := r.data ++ jsonDumps (dictUpdate obj data_merge) }
        else some r
      else some { r with data := r.data ++ jsonDumps obj }
    | .text s => some { r with data := r.data ++ s }

/-- Model of `Response.set_status` (saaba.py lines 68–71). -/
def Response.set_status (r : Response) (value : Nat) : Response :=
  { r with status := value }

/-- Model of `Response.set_headers` (saaba.py lines 73–76). -/
def Response.set_headers (r : Response) (value : List (String × String)) :
    Response :=
  { r with headers := dictUpdate r.headers value }

/-! ## The App: route tables, static mounts, dispatch
(saaba.py lines 79–271) -/

/-- A route handler.  Python handlers mutate the `Response` they are
passed; the model has them return the mutated object. -/
abbrev Handler := Request → Response → Response

/-- The `App` state after the registration phase: `self.routes["get"]`,
`self.routes["post"]` and `self._static_dict`, each a Python dict. -/
structure App where
  routes_get : List (String × Handler)
  routes_post : List (String × Handler)
  static_dict : List (String × String)

/-- Model of `App.__init__` route/static state. -/
def App.init : App := ⟨[], [], []⟩

/-- Model of `App.route` registration (saaba.py line 236):
`self.routes[method][path.rstrip("/")] = func`. -/
def App.route_get (app : App) (path : String) (func : Handler) : App :=
  { app with routes_get := dictSet app.routes_get (rstripSlash path) func }

/-- Model of `App.route` registration for the `"post"` table. -/
def App.route_post (app : App) (path : String) (func : Handler) : App :=
  { app with routes_post := dictSet app.routes_post (rstripSlash path) func }

/-- Model of `App.static` (saaba.py lines 259–261): `self._static_dict[url] = path`. -/
def App.static (app : App) (url : String) (path : String) : App :=
  { app with static_dict := dictSet app.static_dict url path }

/-- Model of `App.is_static` (saaba.py lines 263–265):
`any(url.startswith(x) for x in self._static_dict)`. -/
def App.is_static (app : App) (url : String) : Bool :=
  app.static_dict.any (fun kv => kv.1.data.isPrefixOf url.data)

/-- The sort key of `App.find_static`: `len(a.split("/"))`. -/
def segCount (a : String) : Nat := (pySplit a '/').length

/-- Stable insertion of `x` after every element whose key is `≤ key x`:
building a list by `foldl insertByKey []` reproduces Python's stable
`sorted(..., key=...)`. -/
def insertByKey (key : String → Nat) (x : String) : List String → List String
  | [] => [x]
  | y :: ys => if key y ≤ key x then y :: insertByKey key x ys else x :: y :: ys

/-- Python `sorted(f, key=...)` (stable, ascending). -/
def pySorted (key : String → Nat) (l : List String) : List String :=
  l.foldl (fun acc x => insertByKey key x acc) []

/-- The mount prefix `App.find_static` selects: `s[-1]` of
`sorted(filter(path.startswith, static.keys()), key=lambda a: len(a.split("/")))`.
`none` models the `IndexError` of `s[-1]` on an empty list. -/
def select_static (static : List (String × String)) (path : String) :
    Option String :=
  let f := (static.map Prod.fst).filter (fun k => k.data.isPrefixOf path.data)
  (pySorted segCount f).getLast?

/-- Model of `App.find_static` (saaba.py lines 267–271):
`path.replace(s[-1], static[s[-1]])`. -/
def find_static (static : List (String × String)) (path : String) :
    Option String :=
  match select_static static path with
  | none => none
  | some sel => some (pyReplace path sel ((dictGet static sel).getD ""))

/-! ## Dispatcher (saaba.py  `App.handle_get` lines 104–174,
`App.handle_post` lines 176–216) -/

/-- A finished wire response: status, the explicitly sent headers in send
order, body text.  (`BaseHTTPRequestHandler.send_response` also emits
`Server`/`Date` headers; they are fixed protocol plumbing outside the
dispatcher and not modelled.) -/
structure Wire where
  status : Nat
  headers : List (String × String)
  body : String
deriving DecidableEq, Repr

/-- Python tuple unpacking `a, b = s.split(sep)`: `none` models the
`ValueError` raised when the number of parts is not exactly two. -/
def split2 (s : String) (sep : Char) : Option (String × String) :=
  match pySplit s sep with
  | [a, b] => some (a, b)
  | _ => none

/-- The `for x in query_string.split("&")` loop of `handle_get`
(lines 117–119): each pair is unpacked by `key, value = x.split("=")`
(`none` = `ValueError`), then `query[key] = value`. -/
def parseQueryPairs : List String → List (String × String) →
    Option (List (String × String))
  | [], query => some query
  | x :: rest, query =>
    match pySplit x '=' with
    | [key, value] => parseQueryPairs rest (dictSet query key value)
    | _ => none

/-- Lines 112–121 of `handle_get`: split the raw path into `url` and a
query dict.  `none` models an uncaught `ValueError`. -/
def parseQuery (path : String) :
    Option (String × List (String × String)) :=
  if '?' ∈ path.data then
    match split2 path '?' with
    | none => none
    | some (url, query_string) =>
      match parseQueryPairs (pySplit query_string '&') [] with
      | none => none
      | some query => some (url, query)
  else some (path, [])

/-- Lines 114–129 of `handle_get`: the `Request` a GET route hit
constructs. -/
def make_get_request (path : String) (client : String × Nat) :
    Option Request :=
  match parseQuery path with
  | none => none
  | some (url, query) =>
    some { url := url, path := path, query := some query, body := none,
           client := client }

/-- Lines 179–196 of `handle_post`: the `Request` a POST route hit
constructs — `url = path`, with no query-suffix stripping. -/
def make_post_request (path : String) (client : String × Nat) (body : JObj) :
    Request :=
  { url := path, path := path, query := none, body := some body,
    client := client }

/-- The static/404 fallback of `handle_get` (lines 144–174): the `elif
self.is_static(...)` branch and the final `else`.  `fs` models the
filesystem (`exists` + `read_file`), `guess` models
`mimetypes.guess_type`; `none` models the uncaught `ValueError` on an
unclassifiable MIME type (raised before `end_headers`, so no response is
written). -/
def handle_get_fallback (app : App) (fs : String → Option String)
    (guess : String → Option String) (path : String) : Option Wire :=
  if app.is_static path then
    match find_static app.static_dict path with
    | none => none
    | some abspath0 =>
      let abspath :=
        if abspath0.endsWith "/" then abspath0 ++ "index.html" else abspath0
      match fs abspath with
      | none => some ⟨404, [], ""⟩
      | some content =>
        match guess abspath with
        | none => none
        | some content_type =>
          some ⟨200, [("Content-type", content_type),
                      ("Access-Control-Allow-Origin", "*")], content⟩
  else some ⟨404, [("Content-type", "text/html")], "<h1>File not found</h1>"⟩

/-- Model of `App.handle_get` (lines 104–174).  The route-hit branch guards on
`server.path.rstrip("/") in self.routes["get"]` but *invokes*
`self.routes["get"][url.rstrip("/")]` — the query-stripped url — so the
inner lookup can still `KeyError` (modelled by `none`). -/
def handle_get (app : App) (fs : String → Option String)
    (guess : String → Option String) (path : String) (client : String × Nat) :
    Option Wire :=
  if dictHas app.routes_get (rstripSlash path) then
    match make_get_request path client with
    | none => none
    | some request =>
      match dictGet app.routes_get (rstripSlash request.url) with
      | none => none
      | some func =>
        let response := func request Response.init
        some ⟨response.status, response.headers, response.data⟩
  else handle_get_fallback app fs guess path

/-- The stop condition of the POST body loop (line 185, negated): the
count of opening braces in `body_raw` is nonzero and equals the count of
closing braces. -/
def bodyDone (acc : List Char) : Bool :=
  acc.count '\x7b' != 0 && acc.count '\x7b' == acc.count '\x7d'

/-- Lines 183–186: read one character at a time until `bodyDone`.  The
stream is the full character sequence the client will ever send; `none`
models the blocking read that never returns because the stream is
exhausted before the condition holds. -/
def read_body : List Char → List Char → Option (List Char)
  | acc, [] => if bodyDone acc then some acc else none
  | acc, c :: rest =>
    if bodyDone acc then some acc else read_body (acc ++ [c]) rest

/-- Model of `App.handle_post` (lines 176–216).  Both the guard and the handler
lookup use `server.path.rstrip("/")`; `url` is the raw path, unstripped of
any query suffix. -/
def handle_post (app : App) (path : String) (client : String × Nat)
    (stream : List Char) : Option Wire :=
  if dictHas app.routes_post (rstripSlash path) then
    match read_body [] stream with
    | none => none
    | some body_raw =>
      match jsonLoads ⟨body_raw⟩ with
      | none => none
      | some body =>
        let request : Request := make_post_request path client body
        match dictGet app.routes_post (rstripSlash path) with
        | none => none
        | some func =>
          let response := func request Response.init
          some ⟨response.status, response.headers, response.data⟩
  else some ⟨404, [("Content-type", "text/html")], "<h1>File not found</h1>"⟩

/-- Modelled from the spec's words, for comparison with the code (claim
C7 says the raw path is split "on the first `?`"): split a string at the
first occurrence of `sep`, or signal absence. -/
def splitOnFirst (s : String) (sep : Char) : Option (String × String) :=
  if sep ∈ s.data then
    some (⟨s.data.takeWhile (fun c => c ≠ sep)⟩,
          ⟨(s.data.dropWhile (fun c => c ≠ sep)).tail⟩)
  else none

/-- A route table with a handler under "/a" and another under the
query-suffixed literal "/a?x=1"; each handler marks the body so the one
actually invoked is observable in the wire output. -/
def c9cexApp : App :=
  (App.init.route_get "/a"
      (fun req r => { r with data := "H1:" ++ req.url })).route_get
    "/a?x=1" (fun _ r => { r with data := "H2" })

/-! ## Helper lemmas -/

/-- The function `pySplitL` never returns the empty list of parts. -/
theorem pySplitL_ne_nil (sep : Char) (l : List Char) : pySplitL sep l ≠ [] := by
  induction l with
  | nil => simp [pySplitL]
  | cons c rest ih =>
    simp only [pySplitL]
    cases h : pySplitL sep rest with
    | nil => exact absurd h ih
    | cons p ps => by_cases hc : c = sep <;> simp [hc]

/-- The function `rstripSlashL` removes a (maximal) block of trailing slashes. -/
theorem rstripSlashL_decomp (l : List Char) :
    ∃ n, l = rstripSlashL l ++ List.replicate n '/' := by
  refine ⟨(l.reverse.takeWhile (fun c => c = '/')).length, ?_⟩
  have hmem : ∀ c ∈ l.reverse.takeWhile (fun c => c = '/'), c = '/' := by
    intro c hc
    simpa using List.mem_takeWhile_imp hc
  have htw : l.reverse.takeWhile (fun c => c = '/') =
      List.replicate (l.reverse.takeWhile (fun c => c = '/')).length '/' :=
    List.eq_replicate_of_mem hmem
  conv_lhs => rw [← l.reverse_reverse,
    ← List.takeWhile_append_dropWhile (p := fun c => c = '/') (l := l.reverse)]
  rw [List.reverse_append, rstripSlashL]
  congr 1
  conv_lhs => rw [htw]
  rw [List.reverse_replicate]

/-- The result of `rstripSlashL` has no trailing slash. -/
theorem rstripSlashL_getLast (l : List Char) :
    (rstripSlashL l).getLast? ≠ some '/' := by
  rw [rstripSlashL, List.getLast?_reverse]
  intro h
  have := List.head?_dropWhile_not (fun c => c = '/') l.reverse
  rw [h] at this
  simp at this

/-- Characters other than `'/'` survive `rstripSlashL`. -/
theorem mem_rstripSlashL {c : Char} (hc : c ≠ '/') {l : List Char}
    (h : c ∈ l) : c ∈ rstripSlashL l := by
  rw [rstripSlashL, List.mem_reverse]
  have h2 : c ∈ l.reverse := List.mem_reverse.mpr h
  rw [← List.takeWhile_append_dropWhile (p := fun c => c = '/') (l := l.reverse)]
    at h2
  rcases List.mem_append.mp h2 with h3 | h3
  · exact absurd (by simpa using List.mem_takeWhile_imp h3) hc
  · exact h3

/-- Value of `dictGet` after `dictSet`. -/
theorem dictGet_dictSet {α : Type} (d : List (String × α)) (k k2 : String)
    (v : α) :
    dictGet (dictSet d k v) k2 = if k = k2 then some v else dictGet d k2 := by
  induction d with
  | nil => simp [dictSet, dictGet]
  | cons kv rest ih =>
    obtain ⟨k0, v0⟩ := kv
    simp only [dictSet]
    by_cases h0 : k0 = k <;> by_cases h2 : k = k2 <;> by_cases h3 : k0 = k2 <;>
      simp_all [dictGet]

/-- Value of `dictHas` after `dictSet`. -/
theorem dictHas_dictSet {α : Type} (d : List (String × α)) (k k2 : String)
    (v : α) :
    dictHas (dictSet d k v) k2 = (k = k2 || dictHas d k2) := by
  induction d with
  | nil => simp [dictSet, dictHas, List.any_cons, eq_comm]
  | cons kv rest ih =>
    obtain ⟨k0, v0⟩ := kv
    simp only [dictSet]
    by_cases h0 : k0 = k <;> by_cases h2 : k = k2 <;> by_cases h3 : k0 = k2 <;>
      simp_all [dictHas, List.any_cons]

/-- Membership in `dictHas` unfolded. -/
theorem dictHas_eq_true_iff {α : Type} (d : List (String × α)) (k : String) :
    dictHas d k = true ↔ ∃ kv ∈ d, kv.1 = k := by
  simp [dictHas, List.any_eq_true]

/-- A key absent from a dict's key list has no value. -/
theorem dictGet_eq_none_of_not_mem {α : Type} {d : List (String × α)}
    {k : String} (h : k ∉ d.map Prod.fst) : dictGet d k = none := by
  induction d with
  | nil => rfl
  | cons kv rest ih =>
    simp only [List.map_cons, List.mem_cons] at h
    push_neg at h
    obtain ⟨h1, h2⟩ := h
    simp [dictGet, Ne.symm h1, ih h2]

/-- Value of `dictGet` over `dictUpdate` for a duplicate-free `b` (every Python
dict is): values from `b` win, `a` supplies the rest — Python `a |= b`. -/
theorem dictGet_dictUpdate {α : Type} (a b : List (String × α)) (k : String)
    (hnd : (b.map Prod.fst).Nodup) :
    dictGet (dictUpdate a b) k =
      (dictGet b k).elim (dictGet a k) some := by
  induction b generalizing a with
  | nil => simp [dictUpdate, dictGet]
  | cons kv rest ih =>
    obtain ⟨k0, v0⟩ := kv
    simp only [List.map_cons, List.nodup_cons] at hnd
    show dictGet (dictUpdate (dictSet a k0 v0) rest) k = _
    rw [ih _ hnd.2]
    by_cases h0 : k0 = k
    · subst h0
      have : dictGet rest k0 = none :=
        dictGet_eq_none_of_not_mem (by simpa using hnd.1)
      simp [dictGet, this, dictGet_dictSet]
    · cases hv : dictGet rest k <;> simp [dictGet, h0, hv, dictGet_dictSet]

/-- Splitting a separator-free list yields a single part. -/
theorem pySplitL_not_mem (sep : Char) (l : List Char) (h : sep ∉ l) :
    pySplitL sep l = [l] := by
  induction l with
  | nil => rfl
  | cons c rest ih =>
    have hc : c ≠ sep := fun he => h (he ▸ List.mem_cons_self c rest)
    have hr : sep ∉ rest := fun hm => h (List.mem_cons_of_mem c hm)
    simp [pySplitL, ih hr, hc]

/-- Splitting peels off the part before the first separator when that part
is separator-free. -/
theorem pySplitL_append (sep : Char) (u rest : List Char) (h : sep ∉ u) :
    pySplitL sep (u ++ sep :: rest) = u :: pySplitL sep rest := by
  induction u with
  | nil =>
    simp only [List.nil_append, pySplitL]
    cases hr : pySplitL sep rest with
    | nil => exact absurd hr (pySplitL_ne_nil sep rest)
    | cons p ps => simp
  | cons c u ih =>
    have hc : c ≠ sep := fun he => h (he ▸ List.mem_cons_self c u)
    have hu : sep ∉ u := fun hm => h (List.mem_cons_of_mem c hm)
    simp only [List.cons_append, pySplitL, List.append_eq]
    rw [ih hu]
    simp [hc]

/-- Any two sufficiently large fuels give `pyReplaceFuel` the same value:
fuel at least the haystack length is enough. -/
theorem pyReplaceFuel_congr (old new : List Char) :
    ∀ (n f1 f2 : Nat) (s : List Char), s.length ≤ n → s.length ≤ f1 →
      s.length ≤ f2 →
      pyReplaceFuel old new f1 s = pyReplaceFuel old new f2 s := by
  intro n
  induction n with
  | zero =>
    intro f1 f2 s h0 _ _
    have : s = [] := List.eq_nil_of_length_eq_zero (by omega)
    subst this
    cases f1 <;> cases f2 <;> rfl
  | succ n ih =>
    intro f1 f2 s hn h1 h2
    cases s with
    | nil => cases f1 <;> cases f2 <;> rfl
    | cons c rest =>
      simp only [List.length_cons] at hn h1 h2
      obtain ⟨g1, rfl⟩ : ∃ g1, f1 = g1 + 1 := ⟨f1 - 1, by omega⟩
      obtain ⟨g2, rfl⟩ : ∃ g2, f2 = g2 + 1 := ⟨f2 - 1, by omega⟩
      simp only [pyReplaceFuel]
      by_cases ho : old = []
      · rw [if_pos ho, if_pos ho, ih g1 g2 rest (by omega) (by omega) (by omega)]
      · rw [if_neg ho, if_neg ho]
        by_cases hp : old.isPrefixOf (c :: rest) = true
        · have hol : 1 ≤ old.length := by
            cases old with
            | nil => exact absurd rfl ho
            | cons _ _ => simp
          rw [hp]
          simp only [if_true]
          have hlen : ((c :: rest).drop old.length).length ≤ n := by
            simp only [List.length_drop, List.length_cons]
            omega
          rw [ih g1 g2 _ hlen (by simp only [List.length_drop,
            List.length_cons] at hlen ⊢; omega) (by simp only
            [List.length_drop, List.length_cons] at hlen ⊢; omega)]
        · rw [Bool.not_eq_true] at hp
          rw [hp]
          simp only [Bool.false_eq_true, if_false]
          rw [ih g1 g2 rest (by omega) (by omega) (by omega)]

/-- The function `pyReplaceL` rewrites an occurrence of `old` sitting at the front and
keeps rewriting in the remainder. -/
theorem pyReplaceL_prepend (old new t : List Char) (h : old ≠ []) :
    pyReplaceL old new (old ++ t) = new ++ pyReplaceL old new t := by
  cases old with
  | nil => exact absurd rfl h
  | cons o os =>
    have hpre : (o :: os).isPrefixOf ((o :: os) ++ t) = true := by
      rw [List.isPrefixOf_iff_prefix]
      exact List.prefix_append _ _
    have hd : ((o :: os) ++ t).drop (o :: os).length = t := List.drop_left _ _
    have hlen : (o :: (os ++ t)).length = (t.length + os.length) + 1 := by
      simp [List.length_append]
      omega
    rw [pyReplaceL, pyReplaceL]
    rw [List.cons_append, hlen]
    simp only [pyReplaceFuel]
    rw [if_neg h]
    rw [← List.cons_append, hpre]
    simp only [if_true]
    rw [hd]
    congr 1
    exact pyReplaceFuel_congr (o :: os) new (t.length + os.length) _ _ t
      (by omega) (by omega) (by omega)

/-! ### Stable-sort lemmas for `pySorted` -/

/-- Membership through `insertByKey`. -/
theorem mem_insertByKey (key : String → Nat) (x a : String) (l : List String) :
    a ∈ insertByKey key x l ↔ a = x ∨ a ∈ l := by
  induction l with
  | nil => simp [insertByKey]
  | cons y ys ih =>
    by_cases hy : key y ≤ key x
    · simp only [insertByKey, if_pos hy, List.mem_cons, ih]
      tauto
    · simp only [insertByKey, if_neg hy, List.mem_cons]

/-- The function `insertByKey` preserves sortedness by key. -/
theorem pairwise_insertByKey (key : String → Nat) (x : String)
    (l : List String) (h : l.Pairwise (fun a b => key a ≤ key b)) :
    (insertByKey key x l).Pairwise (fun a b => key a ≤ key b) := by
  induction l with
  | nil => simp [insertByKey]
  | cons y ys ih =>
    rw [List.pairwise_cons] at h
    by_cases hy : key y ≤ key x
    · rw [insertByKey, if_pos hy, List.pairwise_cons]
      refine ⟨?_, ih h.2⟩
      intro a ha
      rcases (mem_insertByKey key x a ys).mp ha with rfl | ha2
      · exact hy
      · exact h.1 a ha2
    · rw [insertByKey, if_neg hy, List.pairwise_cons]
      refine ⟨?_, List.pairwise_cons.mpr h⟩
      intro a ha
      rcases List.mem_cons.mp ha with rfl | ha2
      · omega
      · exact le_trans (by omega) (h.1 a ha2)

/-- Membership through the `foldl` of `pySorted`. -/
theorem mem_foldl_insertByKey (key : String → Nat) (l : List String) :
    ∀ (acc : List String) (a : String),
      a ∈ l.foldl (fun acc x => insertByKey key x acc) acc ↔
        a ∈ acc ∨ a ∈ l := by
  induction l with
  | nil => simp
  | cons y ys ih =>
    intro acc a
    simp only [List.foldl_cons, ih, mem_insertByKey, List.mem_cons]
    tauto

/-- Membership in `pySorted`. -/
theorem mem_pySorted (key : String → Nat) (l : List String) (a : String) :
    a ∈ pySorted key l ↔ a ∈ l := by
  rw [pySorted, mem_foldl_insertByKey]
  simp

/-- The result of `pySorted` is sorted by key. -/
theorem pairwise_pySorted (key : String → Nat) (l : List String) :
    (pySorted key l).Pairwise (fun a b => key a ≤ key b) := by
  rw [pySorted]
  have : ∀ (acc : List String),
      acc.Pairwise (fun a b => key a ≤ key b) →
      (l.foldl (fun acc x => insertByKey key x acc) acc).Pairwise
        (fun a b => key a ≤ key b) := by
    induction l with
    | nil => intro acc h; simpa using h
    | cons y ys ih =>
      intro acc h
      exact ih _ (pairwise_insertByKey key y acc h)
  exact this [] (by simp)

/-- In a key-sorted list the last element has maximal key. -/
theorem getLast_key_max (key : String → Nat) :
    ∀ (l : List String), l.Pairwise (fun a b => key a ≤ key b) →
      ∀ sel, l.getLast? = some sel → ∀ x ∈ l, key x ≤ key sel := by
  intro l
  induction l with
  | nil => intro _ sel h; simp at h
  | cons y ys ih =>
    intro hp sel hlast x hx
    cases ys with
    | nil =>
      simp only [List.getLast?_singleton, Option.some.injEq] at hlast
      subst hlast
      simp only [List.mem_singleton] at hx
      subst hx
      exact le_refl _
    | cons z zs =>
      rw [List.getLast?_cons_cons] at hlast
      rw [List.pairwise_cons] at hp
      rcases List.mem_cons.mp hx with rfl | hx2
      · have hsel : sel ∈ z :: zs := by
          obtain ⟨hne, he⟩ := List.mem_getLast?_eq_getLast hlast
          exact he ▸ List.getLast_mem hne
        exact hp.1 sel hsel
      · exact ih hp.2 sel hlast x hx2

/-! ### The POST body reader -/

/-- The function `read_body` finds the shortest prefix of the remaining stream whose
addition to the accumulator satisfies `bodyDone`. -/
theorem read_body_spec (s : List Char) :
    ∀ acc : List Char,
      (∃ n, n ≤ s.length ∧ bodyDone (acc ++ s.take n) = true) →
      ∃ m, read_body acc s = some (acc ++ s.take m) ∧
        bodyDone (acc ++ s.take m) = true ∧
        ∀ k < m, bodyDone (acc ++ s.take k) = false := by
  induction s with
  | nil =>
    rintro acc ⟨n, -, hn⟩
    simp only [List.take_nil, List.append_nil] at hn
    refine ⟨0, ?_, by simpa using hn, by omega⟩
    rw [read_body, if_pos hn]
    simp
  | cons c rest ih =>
    rintro acc ⟨n, hn, hdone⟩
    by_cases hacc : bodyDone acc = true
    · refine ⟨0, ?_, by simpa using hacc, by omega⟩
      rw [read_body, if_pos hacc]
      simp
    · have hbf : bodyDone acc = false := by
        simpa using hacc
      cases n with
      | zero =>
        simp only [List.take_zero, List.append_nil] at hdone
        exact absurd hdone hacc
      | succ n2 =>
        simp only [List.take_succ_cons] at hdone
        have hdone2 : bodyDone ((acc ++ [c]) ++ rest.take n2) = true := by
          simpa [List.append_assoc] using hdone
        have hn2 : n2 ≤ rest.length := by
          simp only [List.length_cons] at hn; omega
        obtain ⟨m, hread, hm, hmin⟩ := ih (acc ++ [c]) ⟨n2, hn2, hdone2⟩
        refine ⟨m + 1, ?_, ?_, ?_⟩
        · rw [read_body, if_neg hacc]
          simpa [List.append_assoc] using hread
        · simpa [List.append_assoc] using hm
        · intro k hk
          cases k with
          | zero => simpa using hbf
          | succ k2 =>
            have := hmin k2 (by omega)
            simpa [List.append_assoc] using this

/-- Splitting a string containing exactly one separator. -/
theorem split2_one_sep (u q : String) (hu : '?' ∉ u.data) (hq : '?' ∉ q.data) :
    split2 (u ++ "?" ++ q) '?' = some (u, q) := by
  have hdata : (u ++ "?" ++ q).data = u.data ++ '?' :: q.data := by
    simp [String.data_append]
  rw [split2, pySplit, hdata, pySplitL_append _ _ _ hu, pySplitL_not_mem _ _ hq]
  rfl

/-- Splitting a string containing two separators raises (three parts do
not unpack into two names). -/
theorem split2_two_sep (u v w : String) (hu : '?' ∉ u.data)
    (hv : '?' ∉ v.data) (hw : '?' ∉ w.data) :
    split2 (u ++ "?" ++ v ++ "?" ++ w) '?' = none := by
  have hdata : (u ++ "?" ++ v ++ "?" ++ w).data =
      u.data ++ '?' :: (v.data ++ '?' :: w.data) := by
    simp [String.data_append]
  rw [split2, pySplit, hdata, pySplitL_append _ _ _ hu,
    pySplitL_append _ _ _ hv, pySplitL_not_mem _ _ hw]
  rfl

/-- A path with exactly one `'?'` contains `'?'`. -/
theorem mem_one_sep (u q : String) : '?' ∈ (u ++ "?" ++ q).data := by
  have hdata : (u ++ "?" ++ q).data = u.data ++ '?' :: q.data := by
    simp [String.data_append]
  rw [hdata]
  simp

/-! ## Claim theorems -/

/-- C2, counterexample: registering the path "/foo//" stores the key
"/foo" — `rstrip("/")` removed *two* trailing slashes, so the stored key
is not `p` with at most one trailing slash removed (that would be "/foo/"
or "/foo//"). -/
theorem C2_counterexample :
    ((App.init.route_get "/foo//" (fun _ r => r)).routes_get).map Prod.fst =
      ["/foo"] ∧
    ("/foo" : String) ≠ "/foo//" ∧ ("/foo" : String) ≠ "/foo/" := by
  refine ⟨by decide, by decide, by decide⟩

/-- C2 (amended): registration and lookup normalize a path by stripping
**all** trailing `'/'` characters (not exactly one): the stored key is
`p.rstrip("/")`, whose value is `p` minus a maximal trailing block of
slashes, and a lookup key matches exactly when its own full `rstrip("/")`
normalization equals a stored key (exact string equality). -/
theorem C2_theorem (app : App) (p path : String) (h : Handler) :
    (∃ n, p.data = (rstripSlash p).data ++ List.replicate n '/') ∧
    (rstripSlash p).data.getLast? ≠ some '/' ∧
    (dictHas (app.route_get p h).routes_get (rstripSlash path) = true ↔
      (rstripSlash path = rstripSlash p ∨
        dictHas app.routes_get (rstripSlash path) = true)) := by
  refine ⟨rstripSlashL_decomp p.data, rstripSlashL_getLast p.data, ?_⟩
  show dictHas (dictSet app.routes_get (rstripSlash p) h) (rstripSlash path)
      = true ↔ _
  rw [dictHas_dictSet]
  simp only [Bool.or_eq_true, decide_eq_true_eq]
  constructor
  · rintro (h1 | h2)
    · exact Or.inl h1.symm
    · exact Or.inr h2
  · rintro (h1 | h2)
    · exact Or.inl h1.symm
    · exact Or.inr h2

/-- Witness for C2: the amended statement evaluated at the registration of
"/a//" and the lookup path "/a". -/
theorem C2_witness :
    (∃ n, ("/a//" : String).data =
      (rstripSlash "/a//").data ++ List.replicate n '/') ∧
    (rstripSlash "/a//").data.getLast? ≠ some '/' ∧
    (dictHas (App.init.route_get "/a//" (fun _ r => r)).routes_get
        (rstripSlash "/a") = true ↔
      (rstripSlash "/a" = rstripSlash "/a//" ∨
        dictHas App.init.routes_get (rstripSlash "/a") = true)) :=
  C2_theorem App.init "/a//" "/a" (fun _ r => r)

/-- C4, counterexample: with a single mount "/a" → "dir", the request
path "/a/a" resolves to "dirdir" — *both* occurrences of "/a" were
replaced, not only the first (which would give "dir/a"). -/
theorem C4_counterexample :
    find_static [("/a", "dir")] "/a/a" = some "dirdir" ∧
    ("dirdir" : String) ≠ "dir/a" := by
  refine ⟨by decide, by decide⟩

/-- C4 (amended): static resolution substitutes the selected mount's local
directory for **every** occurrence of the matched prefix in the request
path (CPython `str.replace` replaces all occurrences): when the selected
prefix `pre` occurs again right after its leading match, that second
occurrence is rewritten too, and replacement continues in the rest. -/
theorem C4_theorem (pre dir rest : String) (hp : pre ≠ "") :
    find_static [(pre, dir)] (pre ++ (pre ++ rest)) =
      some (dir ++ (dir ++ pyReplace rest pre dir)) := by
  have hpd : pre.data ≠ [] := by
    intro hd
    exact hp (String.ext hd)
  have hdata : (pre ++ (pre ++ rest)).data =
      pre.data ++ (pre.data ++ rest.data) := by
    simp [String.data_append]
  have hpre : pre.data.isPrefixOf (pre ++ (pre ++ rest)).data = true := by
    rw [List.isPrefixOf_iff_prefix, hdata]
    exact List.prefix_append _ _
  have hsel : select_static [(pre, dir)] (pre ++ (pre ++ rest)) = some pre := by
    rw [select_static]
    simp only [List.map_cons, List.map_nil, List.filter, hpre]
    rfl
  rw [find_static, hsel]
  simp only [dictGet, if_pos rfl, Option.getD_some]
  congr 1
  apply String.ext
  show pyReplaceL pre.data dir.data (pre ++ (pre ++ rest)).data = _
  rw [hdata, pyReplaceL_prepend _ _ _ hpd, pyReplaceL_prepend _ _ _ hpd]
  simp [String.data_append, pyReplace]

/-- Witness for C4: the amended statement at pre = "/a", dir = "dir",
rest = "" (the counterexample input, since "/a/a" = "/a" ++ "/a" ++ ""). -/
theorem C4_witness :
    find_static [("/a", "dir")] ("/a" ++ ("/a" ++ "")) =
      some ("dir" ++ ("dir" ++ pyReplace "" "/a" "dir")) :=
  C4_theorem "/a" "dir" "" (by decide)

/-- C5, counterexample: with '/' registered *after* '/assets', the request
"/assets/logo.png" resolves against dirA (every '/' in the path replaced
by "dirA"), not against dirB — the claim's "regardless of registration
order" fails because '/' and '/assets' tie at 2 segments each. -/
theorem C5_counterexample :
    find_static [("/assets", "dirB"), ("/", "dirA")] "/assets/logo.png" =
      some "dirAassetsdirAlogo.png" ∧
    ("dirAassetsdirAlogo.png" : String) ≠ "dirB/logo.png" := by
  refine ⟨by decide, by decide⟩

/-- C5 (amended): the resolver selects a matching mount prefix of maximal
`'/'`-segment count, but ties — and '/' vs '/assets' *is* a tie, both
splitting into 2 segments — go to the mount occurring later in
registration (dict) order, because Python's stable sort keeps the input
order of equal keys and `s[-1]` takes the last.  '/assets/logo.png' therefore
resolves against dirB only for the registration order '/', then
'/assets'; the reverse order selects '/'. -/
theorem C5_theorem :
    (∀ (static : List (String × String)) (path sel : String),
      select_static static path = some sel →
      sel ∈ static.map Prod.fst ∧
      sel.data.isPrefixOf path.data = true ∧
      ∀ k ∈ static.map Prod.fst, k.data.isPrefixOf path.data = true →
        segCount k ≤ segCount sel) ∧
    segCount "/" = 2 ∧ segCount "/assets" = 2 ∧
    find_static [("/", "dirA"), ("/assets", "dirB")] "/assets/logo.png" =
      some "dirB/logo.png" ∧
    find_static [("/assets", "dirB"), ("/", "dirA")] "/assets/logo.png" =
      some "dirAassetsdirAlogo.png" := by
  refine ⟨?_, by decide, by decide, by decide, by decide⟩
  intro static path sel hs
  rw [select_static] at hs
  have hmem : sel ∈ pySorted segCount
      ((static.map Prod.fst).filter
        (fun k => k.data.isPrefixOf path.data)) := by
    obtain ⟨hne, he⟩ := List.mem_getLast?_eq_getLast hs
    exact he ▸ List.getLast_mem hne
  have hmemf := (mem_pySorted _ _ _).mp hmem
  rw [List.mem_filter] at hmemf
  refine ⟨hmemf.1, hmemf.2, ?_⟩
  intro k hk hkpre
  have hkf : k ∈ (static.map Prod.fst).filter
      (fun kk => kk.data.isPrefixOf path.data) :=
    List.mem_filter.mpr ⟨hk, hkpre⟩
  exact getLast_key_max segCount _ (pairwise_pySorted segCount _) sel hs k
    ((mem_pySorted _ _ _).mpr hkf)

/-- Witness for C5: the general selection conjunct evaluated at the
single mount "/" and path "/x". -/
theorem C5_witness :
    ("/" : String) ∈ ([(("/" : String), ("dirA" : String))].map Prod.fst) ∧
    ("/" : String).data.isPrefixOf ("/x" : String).data = true ∧
    ∀ k ∈ [(("/" : String), ("dirA" : String))].map Prod.fst,
      k.data.isPrefixOf ("/x" : String).data = true →
        segCount k ≤ segCount "/" :=
  C5_theorem.1 [("/", "dirA")] "/x" "/" (by decide)

/-- C3, counterexample: after `send({"a":1})`, `add({"b":2})` leaves the
body `'{"a": 1}{"b": 2, "a": 1}'` — the merged object is *appended* to the
prior body (the code runs `self.data += data` after the merge), so the
result is not a JSON body at all (`json.loads` on it raises), let alone
one equal to `{"a":1,"b":2}`; moreover in `data |= data_merge` the
*prior* keys override `data`'s, the reverse of the claim, as the second
conjunct shows: `send({"a":1})` then `add({"a":2})` keeps value 1. -/
theorem C3_counterexample :
    (((Response.init.send (Data.json [("a", JVal.num 1)])).add
        (Data.json [("b", JVal.num 2)])).map
      (fun r => (r.data, jsonLoads r.data))) =
      some ("\x7b\x22a\x22: 1\x7d\x7b\x22b\x22: 2, \x22a\x22: 1\x7d", none) ∧
    (((Response.init.send (Data.json [("a", JVal.num 1)])).add
        (Data.json [("a", JVal.num 2)])).map
      (fun r => r.data)) =
      some "\x7b\x22a\x22: 1\x7d\x7b\x22a\x22: 1\x7d" := by
  refine ⟨by decide, by decide⟩

/-- C3 (amended): when `add` receives a JSON-shaped mapping `d`, the
content type is `application/json` and prior body content exists, the
code parses the prior body, computes the single-level merge
`d |= parsed_prior` — in which the *parsed prior's* keys override `d`'s —
and **appends** its serialization to the prior body (it does not replace
it).  `send({"a":1})` then `add({"b":2})` therefore yields the body
`'{"a": 1}{"b": 2, "a": 1}'` with content-type `application/json`. -/
theorem C3_theorem :
    (∀ (r : Response) (obj prior : JObj),
      dictGet r.headers "Content-type" = some "application/json" →
      r.data ≠ "" →
      jsonLoads r.data = some prior →
      r.add (.json obj) =
        some { r with data := r.data ++ jsonDumps (dictUpdate obj prior) }) ∧
    (∀ (obj prior : JObj) (k : String),
      (prior.map Prod.fst).Nodup →
      dictGet (dictUpdate obj prior) k =
        (dictGet prior k).elim (dictGet obj k) some) ∧
    ((((Response.init.send (Data.json [("a", JVal.num 1)])).add
        (Data.json [("b", JVal.num 2)])).map
      (fun r => (r.data, dictGet r.headers "Content-type"))) =
      some ("\x7b\x22a\x22: 1\x7d\x7b\x22b\x22: 2, \x22a\x22: 1\x7d",
        some "application/json")) := by
  refine ⟨?_, ?_, by decide⟩
  · intro r obj prior hct hd hl
    rw [Response.add, hct]
    simp only [if_pos hd, if_pos rfl, hl]
    simp
  · intro obj prior k hnd
    exact dictGet_dictUpdate obj prior k hnd

/-- Witness for C3: the general merge clause applied at the concrete
example (`send({"a":1})` then `add({"b":2})`). -/
theorem C3_witness :
    (Response.init.send (Data.json [("a", JVal.num 1)])).add
        (Data.json [("b", JVal.num 2)]) =
      some { Response.init.send (Data.json [("a", JVal.num 1)]) with
        data := (Response.init.send (Data.json [("a", JVal.num 1)])).data ++
          jsonDumps (dictUpdate [("b", JVal.num 2)] [("a", JVal.num 1)]) } :=
  C3_theorem.1 (Response.init.send (Data.json [("a", JVal.num 1)]))
    [("b", JVal.num 2)] [("a", JVal.num 1)]
    (by decide) (by decide) (by decide)

/-- C10: `Response.add` never touches `headers` or `status` — whenever it
returns (does not raise), the headers dict and the status are exactly
those of the receiver; and when the body is empty, `add` with a
JSON-shaped mapping stores the serialized JSON as the body while the
headers (hence `Content-type`) keep their prior value. -/
theorem C10_theorem :
    (∀ (r : Response) (d : Data) (r2 : Response),
      r.add d = some r2 → r2.headers = r.headers ∧ r2.status = r.status) ∧
    (∀ (r : Response) (obj : JObj) (r2 : Response),
      r.data = "" → r.add (.json obj) = some r2 →
      r2.data = jsonDumps obj ∧ r2.headers = r.headers) := by
  constructor
  · intro r d r2 hadd
    cases d with
    | text s =>
      unfold Response.add at hadd
      split at hadd
      · exact absurd hadd (by simp)
      · dsimp only at hadd
        simp only [Option.some.injEq] at hadd
        rw [← hadd]
        exact ⟨rfl, rfl⟩
    | json obj =>
      unfold Response.add at hadd
      split at hadd
      · exact absurd hadd (by simp)
      · dsimp only at hadd
        split at hadd
        · split at hadd
          · split at hadd
            · exact absurd hadd (by simp)
            · simp only [Option.some.injEq] at hadd
              rw [← hadd]
              exact ⟨rfl, rfl⟩
          · simp only [Option.some.injEq] at hadd
            rw [← hadd]
            exact ⟨rfl, rfl⟩
        · simp only [Option.some.injEq] at hadd
          rw [← hadd]
          exact ⟨rfl, rfl⟩
  · intro r obj r2 hd hadd
    unfold Response.add at hadd
    split at hadd
    · exact absurd hadd (by simp)
    · dsimp only at hadd
      rw [if_neg (by simp [hd])] at hadd
      simp only [Option.some.injEq] at hadd
      rw [← hadd]
      refine ⟨?_, rfl⟩
      show r.data ++ jsonDumps obj = jsonDumps obj
      rw [hd]
      exact String.ext (by simp [String.data_append])

/-- Witness for C10: both clauses applied at `Response.init` — a text add
and an empty-body JSON add. -/
theorem C10_witness :
    ({ Response.init with data := "x" } : Response).headers =
        Response.init.headers ∧
      ({ Response.init with data := "x" } : Response).status =
        Response.init.status :=
  C10_theorem.1 Response.init (Data.text "x")
    { Response.init with data := "x" } (by decide)

/-- C6, counterexample: a POST route hit does *not* strip the query
suffix — with a handler registered under the literal path "/a?x=1" and
echoing `req.url` into the body, the served body is the full raw path
"/a?x=1", not the query-stripped "/a". -/
theorem C6_counterexample :
    ((handle_post
        (App.init.route_post "/a?x=1" (fun req r => { r with data := req.url }))
        "/a?x=1" ("c", 1) "\x7b\x7d".data).map (fun w => w.body)) =
      some "/a?x=1" ∧
    ("/a?x=1" : String) ≠ "/a" := by
  refine ⟨by decide, by decide⟩

/-- C6 (amended): only GET route hits strip the query suffix, and only
when the raw path contains exactly one `'?'` (with none the url is the
whole path and the query is empty; with two or more the tuple unpacking
raises instead of stripping at the first `'?'`); a POST route hit sets
`url` to the raw path unchanged, query suffix included. -/
theorem C6_theorem :
    (∀ (path : String) (client : String × Nat), '?' ∉ path.data →
      make_get_request path client =
        some { url := path, path := path, query := some [], body := none,
               client := client }) ∧
    (∀ (u q : String) (client : String × Nat) (req : Request),
      '?' ∉ u.data → '?' ∉ q.data →
      make_get_request (u ++ "?" ++ q) client = some req → req.url = u) ∧
    (∀ (u v w : String) (client : String × Nat),
      '?' ∉ u.data → '?' ∉ v.data → '?' ∉ w.data →
      make_get_request (u ++ "?" ++ v ++ "?" ++ w) client = none) ∧
    (∀ (path : String) (client : String × Nat) (body : JObj),
      (make_post_request path client body).url = path) := by
  refine ⟨?_, ?_, ?_, fun _ _ _ => rfl⟩
  · intro path client hp
    rw [make_get_request, parseQuery, if_neg hp]
  · intro u q client req hu hq hreq
    rw [make_get_request, parseQuery, if_pos (mem_one_sep u q),
      split2_one_sep u q hu hq] at hreq
    dsimp only at hreq
    cases hpq : parseQueryPairs (pySplit q '&') [] with
    | none =>
      rw [hpq] at hreq
      exact absurd hreq (by simp)
    | some query =>
      rw [hpq] at hreq
      simp only [Option.some.injEq] at hreq
      rw [← hreq]
  · intro u v w client hu hv hw
    have hmem : '?' ∈ (u ++ "?" ++ v ++ "?" ++ w).data := by
      have : (u ++ "?" ++ v ++ "?" ++ w).data =
          u.data ++ '?' :: (v.data ++ '?' :: w.data) := by
        simp [String.data_append]
      rw [this]
      simp
    rw [make_get_request, parseQuery, if_pos hmem,
      split2_two_sep u v w hu hv hw]

/-- Witness for C6: the one-`'?'` clause applied at the raw path
"/r?a=1". -/
theorem C6_witness :
    ({ url := "/r", path := "/r?a=1", query := some [("a", "1")],
       body := none, client := (("c", 1) : String × Nat) } : Request).url =
      "/r" :=
  C6_theorem.2.1 "/r" "a=1" ("c", 1)
    { url := "/r", path := "/r?a=1", query := some [("a", "1")],
      body := none, client := ("c", 1) }
    (by decide) (by decide) (by decide)

/-- C7, counterexample: on the raw path "/r?a=b?c" the claimed
split-on-first-`'?'` decoding would succeed (url "/r", one pair with key
"a" and value "b?c"), but the code splits on *every* `'?'` and the
three-way unpack raises — `parseQuery` signals the uncaught error
instead of producing a query. -/
theorem C7_counterexample :
    splitOnFirst "/r?a=b?c" '?' = some ("/r", "a=b?c") ∧
    parseQuery "/r?a=b?c" = none := by
  refine ⟨by decide, by decide⟩

/-- C7 (amended): query decoding requires *exactly one* `'?'` in the raw
path (two or more make the unpacking raise — the split is not at the
first `'?'`); the query string is then split on `'&'`, and each pair must
split on `'='` into exactly two parts (a pair without `'='` raises, as
does one with two `'='`); repeated keys resolve last-write-wins. -/
theorem C7_theorem :
    (∀ (u q : String), '?' ∉ u.data → '?' ∉ q.data →
      split2 (u ++ "?" ++ q) '?' = some (u, q)) ∧
    (∀ (u v w : String), '?' ∉ u.data → '?' ∉ v.data → '?' ∉ w.data →
      split2 (u ++ "?" ++ v ++ "?" ++ w) '?' = none) ∧
    (∀ (x : String) (rest : List String) (d : List (String × String)),
      '=' ∉ x.data → parseQueryPairs (x :: rest) d = none) ∧
    parseQuery "/r?a=1&a=2" = some ("/r", [("a", "2")]) ∧
    parseQuery "/r?a=b=c" = none := by
  refine ⟨split2_one_sep, split2_two_sep, ?_, by decide, by decide⟩
  intro x rest d hx
  rw [parseQueryPairs, pySplit, pySplitL_not_mem _ _ hx]
  rfl

/-- Witness for C7: the single-`'?'` split clause applied at "/r" and
"a=1". -/
theorem C7_witness : split2 ("/r" ++ "?" ++ "a=1") '?' = some ("/r", "a=1") :=
  C7_theorem.1 "/r" "a=1" (by decide) (by decide)

/-- C8: the POST body reader, started on a stream some prefix of which
satisfies the brace condition (at least one opening brace, equal counts
of opening and closing braces), terminates and returns exactly the
shortest such prefix. -/
theorem C8_theorem (s : List Char)
    (h : ∃ n, n ≤ s.length ∧ bodyDone (s.take n) = true) :
    ∃ m, read_body [] s = some (s.take m) ∧ bodyDone (s.take m) = true ∧
      ∀ k < m, bodyDone (s.take k) = false := by
  have hs := read_body_spec s [] (by simpa using h)
  simpa using hs

/-- Witness for C8: the reader applied to a two-character balanced-brace
stream. -/
theorem C8_witness :
    ∃ m, read_body [] ("\x7b\x7d" : String).data =
        some ((("\x7b\x7d" : String).data).take m) ∧
      bodyDone ((("\x7b\x7d" : String).data).take m) = true ∧
      ∀ k < m, bodyDone ((("\x7b\x7d" : String).data).take k) = false :=
  C8_theorem ("\x7b\x7d" : String).data ⟨2, by decide, by decide⟩

/-- C9, counterexample: with handlers registered under "/a" and under the
literal "/a?x=1", the raw request path "/a?x=1" — which is p ++ "?" ++ q
for the registered p = "/a" and the non-empty q = "x=1" — *passes* the
route-table guard (via the "/a?x=1" key), the handler registered under
"/a" *is* invoked (the inner lookup uses the query-stripped url), and the
request does not fall through to the static/404 fallback: the served
response is H1's 200, not the fallback's 404. -/
theorem C9_counterexample :
    dictHas c9cexApp.routes_get (rstripSlash "/a?x=1") = true ∧
    ((handle_get c9cexApp (fun _ => none) (fun _ => none) "/a?x=1"
        ("c", 1)).map (fun w => (w.status, w.body))) = some (200, "H1:/a") ∧
    handle_get c9cexApp (fun _ => none) (fun _ => none) "/a?x=1" ("c", 1) ≠
      handle_get_fallback c9cexApp (fun _ => none) (fun _ => none)
        "/a?x=1" := by
  refine ⟨by decide, by decide, by decide⟩

/-- C9 (amended): the GET route guard compares the table against the full
raw path (after `rstrip("/")`) including any query suffix.  When no
registered key contains a `'?'` — so no key can equal a query-suffixed
path — a request `p ++ "?" ++ q` fails the guard, no handler is invoked,
and the request falls through to static resolution or 404.  But when a
key equal to the full query-suffixed path was itself registered, the
guard matches and the dispatcher invokes the handler keyed by the
query-stripped url — possibly the very handler registered under `p`. -/
theorem C9_theorem :
    (∀ (app : App) (fs guess : String → Option String) (p q : String)
        (client : String × Nat),
      (∀ k ∈ app.routes_get.map Prod.fst, '?' ∉ k.data) → q ≠ "" →
      dictHas app.routes_get (rstripSlash (p ++ "?" ++ q)) = false ∧
      handle_get app fs guess (p ++ "?" ++ q) client =
        handle_get_fallback app fs guess (p ++ "?" ++ q)) ∧
    (∀ (app : App) (fs guess : String → Option String) (path : String)
        (client : String × Nat) (req : Request) (func : Handler),
      dictHas app.routes_get (rstripSlash path) = true →
      make_get_request path client = some req →
      dictGet app.routes_get (rstripSlash req.url) = some func →
      handle_get app fs guess path client =
        some ⟨(func req Response.init).status,
          (func req Response.init).headers, (func req Response.init).data⟩) := by
  constructor
  · intro app fs guess p q client hkeys hq
    have hmem : '?' ∈ (rstripSlash (p ++ "?" ++ q)).data :=
      mem_rstripSlashL (by decide) (mem_one_sep p q)
    have hguard : dictHas app.routes_get (rstripSlash (p ++ "?" ++ q))
        = false := by
      by_contra hc
      rw [Bool.not_eq_false, dictHas_eq_true_iff] at hc
      obtain ⟨kv, hkv, hk⟩ := hc
      exact hkeys kv.1 (List.mem_map.mpr ⟨kv, hkv, rfl⟩) (hk ▸ hmem)
    refine ⟨hguard, ?_⟩
    rw [handle_get, hguard]
    simp
  · intro app fs guess path client req func hguard hreq hfunc
    rw [handle_get, hguard]
    simp only [eq_self_iff_true, if_true, hreq]
    try dsimp only
    rw [hfunc]

/-- Witness for C9: the fall-through clause at a table with the single
route "/a" and the request path "/a?x=1". -/
theorem C9_witness :
    dictHas (App.init.route_get "/a" (fun _ r => r)).routes_get
        (rstripSlash ("/a" ++ "?" ++ "x=1")) = false ∧
    handle_get (App.init.route_get "/a" (fun _ r => r)) (fun _ => none)
        (fun _ => none) ("/a" ++ "?" ++ "x=1") ("c", 1) =
      handle_get_fallback (App.init.route_get "/a" (fun _ r => r))
        (fun _ => none) (fun _ => none) ("/a" ++ "?" ++ "x=1") :=
  C9_theorem.1 (App.init.route_get "/a" (fun _ r => r)) (fun _ => none)
    (fun _ => none) "/a" "x=1" ("c", 1) (by decide) (by decide)

/-- C1, counterexample: the double-miss 404 (no route, no static mount)
carries only `Content-type: text/html` — no
`Access-Control-Allow-Origin` header at all, refuting "every response
includes `Access-Control-Allow-Origin: *`". -/
theorem C1_counterexample :
    ((handle_get App.init (fun _ => none) (fun _ => none) "/x" ("c", 1)).map
      (fun w => (w.status, dictGet w.headers "Access-Control-Allow-Origin"))) =
      some (404, none) := by
  decide

/-- C1 (amended): route-hit responses carry exactly the handler's
`Response` headers, whose defaults include
`Access-Control-Allow-Origin: *`, and successfully served static files
send that header explicitly; but the three 404 paths send it in no case —
the GET double miss and the POST route miss send only
`Content-type: text/html`, and the missing-static-file 404 sends no
headers at all. -/
theorem C1_theorem :
    (∀ (app : App) (fs guess : String → Option String) (path : String)
        (client : String × Nat),
      dictHas app.routes_get (rstripSlash path) = false →
      app.is_static path = false →
      ∃ w, handle_get app fs guess path client = some w ∧ w.status = 404 ∧
        dictGet w.headers "Access-Control-Allow-Origin" = none) ∧
    (∀ (app : App) (fs guess : String → Option String) (path ap : String)
        (client : String × Nat),
      dictHas app.routes_get (rstripSlash path) = false →
      app.is_static path = true →
      find_static app.static_dict path = some ap →
      fs (if ap.endsWith "/" then ap ++ "index.html" else ap) = none →
      ∃ w, handle_get app fs guess path client = some w ∧ w.status = 404 ∧
        w.headers = []) ∧
    (∀ (app : App) (fs guess : String → Option String)
        (path ap content ct : String) (client : String × Nat),
      dictHas app.routes_get (rstripSlash path) = false →
      app.is_static path = true →
      find_static app.static_dict path = some ap →
      fs (if ap.endsWith "/" then ap ++ "index.html" else ap) = some content →
      guess (if ap.endsWith "/" then ap ++ "index.html" else ap) = some ct →
      ∃ w, handle_get app fs guess path client = some w ∧ w.status = 200 ∧
        dictGet w.headers "Access-Control-Allow-Origin" = some "*") ∧
    (∀ (app : App) (fs guess : String → Option String) (path : String)
        (client : String × Nat) (req : Request) (func : Handler),
      dictHas app.routes_get (rstripSlash path) = true →
      make_get_request path client = some req →
      dictGet app.routes_get (rstripSlash req.url) = some func →
      handle_get app fs guess path client =
        some ⟨(func req Response.init).status,
          (func req Response.init).headers, (func req Response.init).data⟩) ∧
    dictGet Response.init.headers "Access-Control-Allow-Origin" = some "*" ∧
    (∀ (app : App) (path : String) (client : String × Nat)
        (stream : List Char),
      dictHas app.routes_post (rstripSlash path) = false →
      ∃ w, handle_post app path client stream = some w ∧ w.status = 404 ∧
        dictGet w.headers "Access-Control-Allow-Origin" = none) := by
  refine ⟨?_, ?_, ?_, ?_, by decide, ?_⟩
  · intro app fs guess path client hguard hstatic
    rw [handle_get, hguard, handle_get_fallback, hstatic]
    simp only [Bool.false_eq_true, if_false]
    exact ⟨⟨404, [("Content-type", "text/html")], "<h1>File not found</h1>"⟩,
      rfl, rfl, by decide⟩
  · intro app fs guess path ap client hguard hstatic hfind hfs
    rw [handle_get, hguard, handle_get_fallback, hstatic]
    simp only [Bool.false_eq_true, if_false, eq_self_iff_true, if_true, hfind]
    try dsimp only
    rw [hfs]
    exact ⟨⟨404, [], ""⟩, rfl, rfl, rfl⟩
  · intro app fs guess path ap content ct client hguard hstatic hfind hfs hguess
    rw [handle_get, hguard, handle_get_fallback, hstatic]
    simp only [Bool.false_eq_true, if_false, eq_self_iff_true, if_true, hfind]
    try dsimp only
    rw [hfs]
    try dsimp only
    rw [hguess]
    exact ⟨⟨200, [("Content-type", ct), ("Access-Control-Allow-Origin", "*")],
      content⟩, rfl, rfl, by simp [dictGet]⟩
  · intro app fs guess path client req func hguard hreq hfunc
    rw [handle_get, hguard]
    simp only [eq_self_iff_true, if_true, hreq]
    try dsimp only
    rw [hfunc]
  · intro app path client stream hguard
    rw [handle_post, hguard]
    simp only [Bool.false_eq_true, if_false]
    exact ⟨⟨404, [("Content-type", "text/html")], "<h1>File not found</h1>"⟩,
      rfl, rfl, by decide⟩

/-- Witness for C1: the double-miss clause applied to the empty app and
the path "/y". -/
theorem C1_witness :
    ∃ w, handle_get App.init (fun _ => none) (fun _ => none) "/y" ("c", 1) =
        some w ∧ w.status = 404 ∧
      dictGet w.headers "Access-Control-Allow-Origin" = none :=
  C1_theorem.1 App.init (fun _ => none) (fun _ => none) "/y" ("c", 1)
    (by decide) (by decide)

end Saaba
